import Mathlib

/-!
Shallow embedding of the CHIP-8 virtual machine of mnafees/chopper.
The authoritative implementation (the one the spec follows, see its §9
"Dual near-duplicate implementations") is the `internal` package:
`C8VM`, `NewC8VM`, `LoadProgram`, `ReadNextInstruction`, `initSprite`,
`SetKeymask`, `UnsetKeymask`, `issetKeymask`.

Machine integers are modelled as `Nat` with explicit wraparound:
`u8 n = n % 256` for Go `uint8` arithmetic, `u16 n = n % 65536` for Go
`uint16` arithmetic.  The Go `int16` key mask is modelled by its 16-bit
pattern (two's complement bit operations agree with `Nat` bit operations
on the pattern).  A Go runtime index-out-of-range (which kills the
process) is modelled by the `crash` outcome; array reads and writes are
bounds-checked exactly where Go would panic.  The `prevTime` field
(wall-clock bookkeeping) is outside the embedding.
-/

/-- Go `uint8` wraparound. -/
def u8 (n : Nat) : Nat := n % 256

/-- Go `uint16` wraparound. -/
def u16 (n : Nat) : Nat := n % 65536

/-- The VM state: the fields of the Go struct `C8VM` (the wall-clock
field `prevTime` carries no instruction semantics and is omitted). -/
structure C8VM where
  opcode : Nat
  regV : Fin 16 → Nat
  regI : Nat
  delayTimer : Nat
  soundTimer : Nat
  pc : Nat
  sp : Nat
  stack : Fin 16 → Nat
  memory : Fin 4096 → Nat
  clearFlag : Bool
  drawFlag : Bool
  key : Nat
  pixels : Fin 64 → Fin 32 → Nat

/-- The 80-byte fontset copied to addresses 0x000–0x04F at construction. -/
def fontset : List Nat :=
  [0xF0, 0x90, 0x90, 0x90, 0xF0,
   0x20, 0x60, 0x20, 0x20, 0x70,
   0xF0, 0x10, 0xF0, 0x80, 0xF0,
   0xF0, 0x10, 0xF0, 0x10, 0xF0,
   0x90, 0x90, 0xF0, 0x10, 0x10,
   0xF0, 0x80, 0xF0, 0x10, 0xF0,
   0xF0, 0x80, 0xF0, 0x90, 0xF0,
   0xF0, 0x10, 0x20, 0x40, 0x40,
   0xF0, 0x90, 0xF0, 0x90, 0xF0,
   0xF0, 0x90, 0xF0, 0x10, 0xF0,
   0xF0, 0x90, 0xF0, 0x90, 0x90,
   0xE0, 0x90, 0xE0, 0x90, 0xE0,
   0xF0, 0x80, 0x80, 0x80, 0xF0,
   0xE0, 0x90, 0x90, 0x90, 0xE0,
   0xF0, 0x80, 0xF0, 0x80, 0xF0,
   0xF0, 0x80, 0xF0, 0x80, 0x80]

/-- `NewC8VM`: zeroed state, fontset at the bottom of memory, PC = 0x200.
(The Go constructor's short-copy error branch is unreachable for the
fixed-size fontset.) -/
def NewC8VM : C8VM where
  opcode := 0
  regV := fun _ => 0
  regI := 0
  delayTimer := 0
  soundTimer := 0
  pc := 0x200
  sp := 0
  stack := fun _ => 0
  memory := fun i => fontset.getD i.val 0
  clearFlag := false
  drawFlag := false
  key := 0
  pixels := fun _ _ => 0

/-- `LoadProgram`: copy the program bytes at 0x200; `none` models the
"Program size exceeds the maximum size" error (maxProgramSize = 3584). -/
def LoadProgram (vm : C8VM) (data : List Nat) : Option C8VM :=
  if data.length > 3584 then none
  else some { vm with
    memory := fun i =>
      if 0x200 ≤ i.val ∧ i.val < 0x200 + data.length
      then data.getD (i.val - 0x200) 0
      else vm.memory i }

/-- Outcome of one call of `ReadNextInstruction`:
`ok` a normal return (`nil` error), `err` the `unknownOpcode` error
return (carrying the mutated receiver), `hang` the `Fx0A` busy-poll that
never exits, `crash` a Go runtime index-out-of-range panic. -/
inductive StepResult where
  | ok (vm : C8VM)
  | err (vm : C8VM)
  | hang (vm : C8VM)
  | crash

/-- Bounds-checked memory read (`vm.memory[addr]`); `none` is a panic. -/
def memRead (vm : C8VM) (addr : Nat) : Option Nat :=
  if h : addr < 4096 then some (vm.memory ⟨addr, h⟩) else none

/-- Bounds-checked memory write (`vm.memory[addr] = val`). -/
def memWrite (vm : C8VM) (addr val : Nat) : Option C8VM :=
  if h : addr < 4096 then
    some { vm with memory := Function.update vm.memory ⟨addr, h⟩ val }
  else none

/-- The fetch: `opcode = uint16(memory[pc])<<8 | uint16(memory[pc+1])`. -/
def fetch (vm : C8VM) : Option Nat :=
  match memRead vm vm.pc, memRead vm (u16 (vm.pc + 1)) with
  | some hi, some lo => some (u16 (hi <<< 8) ||| lo)
  | _, _ => none

/-- `issetKeymask`: `mask := int16(1 << code); key & mask == mask`.
For `code ≥ 16` the Go `int16` shift yields 0 (and the test is then
vacuously true), which `u16 (1 <<< code)` reproduces. -/
def issetKeymask (key code : Nat) : Bool :=
  let mask := u16 (1 <<< code)
  key &&& mask == mask

/-- `SetKeymask`: `vm.key |= (1 << code)` on the 16-bit pattern. -/
def SetKeymask (key code : Nat) : Nat :=
  key ||| u16 (1 <<< code)

/-- `UnsetKeymask`: `vm.key ^= (1 << code)` — an XOR, i.e. a toggle of
the bit, not a clear. -/
def UnsetKeymask (key code : Nat) : Nat :=
  key ^^^ u16 (1 <<< code)

/-- VF, the flag register. -/
def fF : Fin 16 := ⟨15, by norm_num⟩

/-- Register 0. -/
def f0 : Fin 16 := ⟨0, by norm_num⟩

/-- The framebuffer cell written for bit `bitIdx`:
column `(x + (7 - bitIdx)) % ScreenWidth` in Go `uint8` arithmetic. -/
def colF (x k : Nat) : Fin 64 :=
  ⟨u8 (x + (7 - k)) % 64, Nat.mod_lt _ (by norm_num)⟩

/-- The framebuffer row written for sprite row `byteIdx`:
`(y + byteIdx) % ScreenHeight` in Go `uint8` arithmetic. -/
def rowF (y b : Nat) : Fin 32 :=
  ⟨u8 (y + b) % 32, Nat.mod_lt _ (by norm_num)⟩

/-- Write one framebuffer cell. -/
def writePx (p : Fin 64 → Fin 32 → Nat) (c : Fin 64) (r : Fin 32) (v : Nat) :
    Fin 64 → Fin 32 → Nat :=
  Function.update p c (Function.update (p c) r v)

/-- One iteration of the inner `bitIdx` loop of `initSprite`:
`bit := (spriteByte >> bitIdx) & 0x1`; if `bit == 1 && *px == 1` then
`VF = 1`; `*px ^= bit`.  `st` is the (pixels, VF) pair. -/
def blitBit (x y b sb : Nat) (st : (Fin 64 → Fin 32 → Nat) × Nat) (k : Nat) :
    (Fin 64 → Fin 32 → Nat) × Nat :=
  let bit := (sb >>> k) &&& 0x1
  let c := colF x k
  let r := rowF y b
  let px := st.1 c r
  let vf := if bit = 1 ∧ px = 1 then 1 else st.2
  (writePx st.1 c r (px ^^^ bit), vf)

/-- The inner loop of `initSprite` after its first `j` iterations
(`bitIdx = 0, 1, …, j-1`, in source order); the full loop is `j = 8`. -/
def blitRow (x y b sb : Nat) (st : (Fin 64 → Fin 32 → Nat) × Nat) :
    Nat → (Fin 64 → Fin 32 → Nat) × Nat
  | 0 => st
  | j + 1 => blitBit x y b sb (blitRow x y b sb st j) j

/-- The outer `byteIdx` loop of `initSprite` after its first `m`
iterations (`byteIdx = 0, 1, …, m-1`, in source order): each iteration
reads `spriteByte := vm.memory[vm.regI + uint16(byteIdx)]` (a panic if
out of the 4096-byte array) and runs the 8-bit inner loop on the
(pixels, VF) state. -/
def drawRows (x y : Nat) (vm : C8VM) : Nat → Option C8VM
  | 0 => some vm
  | m + 1 =>
    match drawRows x y vm m with
    | none => none
    | some vmp =>
      match memRead vmp (u16 (vmp.regI + m)) with
      | none => none
      | some sb =>
        let st := blitRow x y m sb (vmp.pixels, vmp.regV fF) 8
        some { vmp with pixels := st.1,
                        regV := Function.update vmp.regV fF st.2 }

/-- `initSprite`: NOTE the Go guard `if n > 15 || n == 0` calls
`vm.unknownOpcode()` but DISCARDS the returned error (no `return`), so
execution falls through in every case; the guard is semantically a
no-op and the model reflects that.  Then `vm.regV[0xF] = 0` and the
nested blit loops run. -/
def initSprite (vm : C8VM) (x y n : Nat) : Option C8VM :=
  drawRows x y { vm with regV := Function.update vm.regV fF 0 } n

/-- `vm.pc += 2` (uint16). -/
def advancePC (vm : C8VM) : C8VM := { vm with pc := u16 (vm.pc + 2) }

/-- The `Fx55` loop `for i := 0; i <= x; i++ { memory[regI+i] = regV[i] }`
after its first `c` iterations; the full loop is `c = x + 1`.  The
regV index is `i ≤ x < 16` at the only call site (the `else none` arm
is unreachable there). -/
def storeRegs (vm : C8VM) : Nat → Option C8VM
  | 0 => some vm
  | c + 1 =>
    match storeRegs vm c with
    | none => none
    | some vmp =>
      if h : c < 16 then memWrite vmp (u16 (vmp.regI + c)) (vmp.regV ⟨c, h⟩)
      else none

/-- The `Fx65` loop `for i := 0; i <= x; i++ { regV[i] = memory[regI+i] }`
after its first `c` iterations. -/
def loadRegs (vm : C8VM) : Nat → Option C8VM
  | 0 => some vm
  | c + 1 =>
    match loadRegs vm c with
    | none => none
    | some vmp =>
      match memRead vmp (u16 (vmp.regI + c)) with
      | none => none
      | some v =>
        if h : c < 16 then
          some { vmp with regV := Function.update vmp.regV ⟨c, h⟩ v }
        else none

/-- Go `uint8` subtraction `a - b` for `a b < 256`. -/
def sub8 (a b : Nat) : Nat := (a + 256 - b) % 256

/-- The decode–dispatch–execute part of `ReadNextInstruction` (the
`switch vm.opcode & 0xF000` and everything below it), translated switch
case by switch case from the Go source.  `rnd` is the value the Go code
draws from `rand.Intn(256)` for opcode `Cxkk`, passed in as an oracle.
The `Fx0A` busy-wait loop re-tests `issetKeymask(vm.regV[x])` — a
condition that does not change inside the loop — so it either exits in
the very first inner iteration (`i = 0`, storing 0 into `Vx`) or never
exits (`hang`); `List.find?` over `i = 0, …, 15` returns the first `i`
whose test passes, which reproduces exactly that. -/
def execOpcode (rnd op : Nat) (vm : C8VM) : StepResult :=
    let vm1 : C8VM := { vm with opcode := op }
    let xi : Fin 16 := ⟨(op >>> 8) &&& 0xF, Nat.lt_succ_of_le Nat.and_le_right⟩
    let yi : Fin 16 := ⟨(op >>> 4) &&& 0xF, Nat.lt_succ_of_le Nat.and_le_right⟩
    let n := op &&& 0xF
    let kk := op &&& 0xFF
    let nnn := op &&& 0xFFF
    match op &&& 0xF000 with
    | 0x0000 =>
      match kk with
      | 0xE0 => .ok (advancePC { vm1 with clearFlag := true })
      | 0xEE =>
        let sp2 := (vm1.sp + 255) % 256
        if h : sp2 < 16 then
          .ok { vm1 with sp := sp2, pc := u16 (vm1.stack ⟨sp2, h⟩ + 2) }
        else .crash
      | _ => .err vm1
    | 0x1000 => .ok { vm1 with pc := nnn }
    | 0x2000 =>
      if h : vm1.sp < 16 then
        .ok { vm1 with stack := Function.update vm1.stack ⟨vm1.sp, h⟩ vm1.pc,
                       sp := (vm1.sp + 1) % 256,
                       pc := nnn }
      else .crash
    | 0x3000 =>
      let vm2 := if vm1.regV xi = kk then advancePC vm1 else vm1
      .ok (advancePC vm2)
    | 0x4000 =>
      let vm2 := if vm1.regV xi ≠ kk then advancePC vm1 else vm1
      .ok (advancePC vm2)
    | 0x5000 =>
      match n with
      | 0x0 =>
        let vm2 := if vm1.regV xi = vm1.regV yi then advancePC vm1 else vm1
        .ok (advancePC vm2)
      | _ => .err vm1
    | 0x6000 => .ok (advancePC { vm1 with regV := Function.update vm1.regV xi kk })
    | 0x7000 =>
      .ok (advancePC { vm1 with regV := Function.update vm1.regV xi (u8 (vm1.regV xi + kk)) })
    | 0x8000 =>
      match n with
      | 0x0 =>
        .ok (advancePC { vm1 with regV := Function.update vm1.regV xi (vm1.regV yi) })
      | 0x1 =>
        .ok (advancePC { vm1 with regV := Function.update vm1.regV xi (vm1.regV xi ||| vm1.regV yi) })
      | 0x2 =>
        .ok (advancePC { vm1 with regV := Function.update vm1.regV xi (vm1.regV xi &&& vm1.regV yi) })
      | 0x3 =>
        .ok (advancePC { vm1 with regV := Function.update vm1.regV xi (vm1.regV xi ^^^ vm1.regV yi) })
      | 0x4 =>
        let temp := vm1.regV xi + vm1.regV yi
        let r1 := Function.update vm1.regV fF (if temp > 255 then 1 else 0)
        let r2 := Function.update r1 xi (u8 (temp &&& 0xFFFF))
        .ok (advancePC { vm1 with regV := r2 })
      | 0x5 =>
        let r1 := Function.update vm1.regV fF (if vm1.regV xi > vm1.regV yi then 1 else 0)
        let r2 := Function.update r1 xi (sub8 (r1 xi) (r1 yi))
        .ok (advancePC { vm1 with regV := r2 })
      | 0x6 =>
        let r1 := Function.update vm1.regV fF (if vm1.regV xi &&& 0x01 = 1 then 1 else 0)
        let r2 := Function.update r1 xi (r1 xi / 2)
        .ok (advancePC { vm1 with regV := r2 })
      | 0x7 =>
        let r1 := Function.update vm1.regV fF (if vm1.regV yi > vm1.regV xi then 1 else 0)
        let r2 := Function.update r1 xi (sub8 (r1 yi) (r1 xi))
        .ok (advancePC { vm1 with regV := r2 })
      | 0xE =>
        let r1 := Function.update vm1.regV fF (if vm1.regV xi &&& 0x80 = 0x80 then 1 else 0)
        let r2 := Function.update r1 xi (u8 (r1 xi * 2))
        .ok (advancePC { vm1 with regV := r2 })
      | _ => .err vm1
    | 0x9000 =>
      match n with
      | 0x0 =>
        let vm2 := if vm1.regV xi ≠ vm1.regV yi then advancePC vm1 else vm1
        .ok (advancePC vm2)
      | _ => .err vm1
    | 0xA000 => .ok (advancePC { vm1 with regI := nnn })
    | 0xB000 => .ok { vm1 with pc := u16 (nnn + vm1.regV f0) }
    | 0xC000 =>
      .ok (advancePC { vm1 with regV := Function.update vm1.regV xi ((rnd % 256) &&& kk) })
    | 0xD000 =>
      match initSprite vm1 (vm1.regV xi) (vm1.regV yi) n with
      | none => .crash
      | some vmd => .ok { (advancePC vmd) with drawFlag := true }
    | 0xE000 =>
      match kk with
      | 0x9E =>
        let vm2 := if issetKeymask vm1.key (vm1.regV xi) then advancePC vm1 else vm1
        .ok (advancePC vm2)
      | 0xA1 =>
        let vm2 := if issetKeymask vm1.key (vm1.regV xi) then vm1 else advancePC vm1
        .ok (advancePC vm2)
      | _ => .err vm1
    | 0xF000 =>
      match kk with
      | 0x07 =>
        .ok (advancePC { vm1 with regV := Function.update vm1.regV xi vm1.delayTimer })
      | 0x0A =>
        match (List.range 16).find? (fun _i => issetKeymask vm1.key (vm1.regV xi)) with
        | some i => .ok (advancePC { vm1 with regV := Function.update vm1.regV xi i })
        | none => .hang vm1
      | 0x15 => .ok (advancePC { vm1 with delayTimer := vm1.regV xi })
      | 0x18 => .ok (advancePC { vm1 with soundTimer := vm1.regV xi })
      | 0x1E => .ok (advancePC { vm1 with regI := u16 (vm1.regI + vm1.regV xi) })
      | 0x29 => .ok (advancePC { vm1 with regI := u8 (5 * vm1.regV xi) })
      | 0x33 =>
        match memWrite vm1 vm1.regI ((vm1.regV xi / 100) % 10) with
        | none => .crash
        | some vmA =>
          match memWrite vmA (u16 (vmA.regI + 1)) ((vmA.regV xi / 10) % 10) with
          | none => .crash
          | some vmB =>
            match memWrite vmB (u16 (vmB.regI + 2)) (vmB.regV xi % 10) with
            | none => .crash
            | some vmC => .ok (advancePC vmC)
      | 0x55 =>
        match storeRegs vm1 (xi.val + 1) with
        | none => .crash
        | some vmS => .ok (advancePC vmS)
      | 0x65 =>
        match loadRegs vm1 (xi.val + 1) with
        | none => .crash
        | some vmL => .ok (advancePC vmL)
      | _ => .err vm1
    | _ => .err vm1

/-- `ReadNextInstruction`: one full cycle: fetch the 16-bit opcode at
`pc` (a Go index panic if `pc+1` is outside the 4096-byte memory), then
decode and execute it. -/
def ReadNextInstruction (rnd : Nat) (vm : C8VM) : StepResult :=
  match fetch vm with
  | none => .crash
  | some op => execOpcode rnd op vm

/-- `DecrementDelayTimer`: saturating decrement. -/
def DecrementDelayTimer (vm : C8VM) : C8VM :=
  if vm.delayTimer > 0 then { vm with delayTimer := vm.delayTimer - 1 } else vm

/-- `DecrementSoundTimer`: saturating decrement. -/
def DecrementSoundTimer (vm : C8VM) : C8VM :=
  if vm.soundTimer > 0 then { vm with soundTimer := vm.soundTimer - 1 } else vm

/-- Observer: the state of a normal (`nil`-error) return. -/
def StepResult.okState : StepResult → Option C8VM
  | .ok vm => some vm
  | _ => none

/-- Observer: the state left behind by an `unknownOpcode` error return. -/
def StepResult.errState : StepResult → Option C8VM
  | .err vm => some vm
  | _ => none

/-- Observer: a register of the `ok` state. -/
def okReg (r : StepResult) (i : Fin 16) : Option Nat :=
  match r with
  | .ok vm => some (vm.regV i)
  | _ => none

/-- Observer: the I register of the `ok` state. -/
def okRegI (r : StepResult) : Option Nat :=
  match r with
  | .ok vm => some vm.regI
  | _ => none

/-- Observer: the program counter of the `ok` state. -/
def okPC (r : StepResult) : Option Nat :=
  match r with
  | .ok vm => some vm.pc
  | _ => none

/-- Observer: the draw flag of the `ok` state. -/
def okDrawFlag (r : StepResult) : Option Bool :=
  match r with
  | .ok vm => some vm.drawFlag
  | _ => none

/-- Observer: the stack pointer of the `ok` state. -/
def okSP (r : StepResult) : Option Nat :=
  match r with
  | .ok vm => some vm.sp
  | _ => none

/-- Observer: the opcode field left behind by an `unknownOpcode` error
return. -/
def errOpcode (r : StepResult) : Option Nat :=
  match r with
  | .err vm => some vm.opcode
  | _ => none

/-- Observer: one framebuffer cell of the `ok` state. -/
def okPixel (r : StepResult) (c : Fin 64) (p : Fin 32) : Option Nat :=
  match r with
  | .ok vm => some (vm.pixels c p)
  | _ => none

/-- An opcode that reaches one of the `default: return vm.unknownOpcode()`
arms of the `switch` in `ReadNextInstruction`, written with exactly the
source's discriminators (high nibble, then low byte or low nibble). -/
def isUnknown (op : Nat) : Bool :=
  match op &&& 0xF000 with
  | 0x0000 => match op &&& 0xFF with | 0xE0 => false | 0xEE => false | _ => true
  | 0x1000 => false
  | 0x2000 => false
  | 0x3000 => false
  | 0x4000 => false
  | 0x5000 => (match op &&& 0xF with | 0x0 => false | _ => true)
  | 0x6000 => false
  | 0x7000 => false
  | 0x8000 =>
    (match op &&& 0xF with
     | 0x0 | 0x1 | 0x2 | 0x3 | 0x4 | 0x5 | 0x6 | 0x7 | 0xE => false
     | _ => true)
  | 0x9000 => (match op &&& 0xF with | 0x0 => false | _ => true)
  | 0xA000 => false
  | 0xB000 => false
  | 0xC000 => false
  | 0xD000 => false
  | 0xE000 => (match op &&& 0xFF with | 0x9E => false | 0xA1 => false | _ => true)
  | 0xF000 =>
    (match op &&& 0xFF with
     | 0x07 | 0x0A | 0x15 | 0x18 | 0x1E | 0x29 | 0x33 | 0x55 | 0x65 => false
     | _ => true)
  | _ => true

/-- A convenient all-zero state with PC at the program start. -/
def zeroVM : C8VM where
  opcode := 0
  regV := fun _ => 0
  regI := 0
  delayTimer := 0
  soundTimer := 0
  pc := 0x200
  sp := 0
  stack := fun _ => 0
  memory := fun _ => 0
  clearFlag := false
  drawFlag := false
  key := 0
  pixels := fun _ _ => 0

/-- State with `F00A` (LD V0, K) at PC, register V0 = 5, and exactly
key 5 held down (key mask 0x0020). -/
def vmC1 : C8VM :=
  { zeroVM with
    memory := fun i => if i.val = 0x200 then 0xF0 else if i.val = 0x201 then 0x0A else 0,
    regV := fun i => if i.val = 0 then 5 else 0,
    key := 0x20 }

/-- State with the unrecognized opcode `0x5001` at PC. -/
def vmC2 : C8VM :=
  { zeroVM with
    memory := fun i => if i.val = 0x200 then 0x50 else if i.val = 0x201 then 0x01 else 0 }

/-- State with `8F04` (ADD VF, V0) at PC, VF = 0xFF, V0 = 0x03. -/
def vmC4 : C8VM :=
  { zeroVM with
    memory := fun i => if i.val = 0x200 then 0x8F else if i.val = 0x201 then 0x04 else 0,
    regV := fun i => if i.val = 15 then 0xFF else if i.val = 0 then 0x03 else 0 }

/-- State with `8124` (ADD V1, V2) at PC, V1 = 0xFF, V2 = 0x02 — the
spec's own worked example. -/
def vmW4 : C8VM :=
  { zeroVM with
    memory := fun i => if i.val = 0x200 then 0x81 else if i.val = 0x201 then 0x24 else 0,
    regV := fun i => if i.val = 1 then 0xFF else if i.val = 2 then 0x02 else 0 }

/-- State whose program counter sits on the last memory byte, so the
fetch of the second opcode byte indexes `memory[4096]`. -/
def vmC7 : C8VM := { zeroVM with pc := 4095 }

/-- State with `D010` (DRW V0, V1, n = 0) at PC and VF pre-set to 7. -/
def vmC8 : C8VM :=
  { zeroVM with
    memory := fun i => if i.val = 0x200 then 0xD0 else if i.val = 0x201 then 0x10 else 0,
    regV := fun i => if i.val = 15 then 7 else 0,
    regI := 0x300 }

/-- State with `F029` (LD F, V0) at PC and V0 = 0x40. -/
def vmC9 : C8VM :=
  { zeroVM with
    memory := fun i => if i.val = 0x200 then 0xF0 else if i.val = 0x201 then 0x29 else 0,
    regV := fun i => if i.val = 0 then 0x40 else 0 }

/-- State with `F029` (LD F, V0) at PC and V0 = 0xB (a font digit). -/
def vmW9 : C8VM :=
  { zeroVM with
    memory := fun i => if i.val = 0x200 then 0xF0 else if i.val = 0x201 then 0x29 else 0,
    regV := fun i => if i.val = 0 then 0xB else 0 }

/-- State with `00EE` (RET) at PC, SP = 1, and a return address on the
stack. -/
def vmW3 : C8VM :=
  { zeroVM with
    memory := fun i => if i.val = 0x200 then 0x00 else if i.val = 0x201 then 0xEE else 0,
    sp := 1,
    stack := fun _ => 0x400 }

/-- State with `2300` (CALL 0x300) at PC and SP = 15 (a full stack about
to overflow). -/
def vmW3b : C8VM :=
  { zeroVM with
    memory := fun i => if i.val = 0x200 then 0x23 else if i.val = 0x201 then 0x00 else 0,
    sp := 15 }

/-- The sprite byte the draw loop reads for row `b` (0 when the read
would be out of bounds — the loop itself panics there instead). -/
def spriteByteAt (vm : C8VM) (b : Nat) : Nat :=
  (memRead vm (u16 (vm.regI + b))).getD 0

/-- Observer: one framebuffer cell of a draw result. -/
def drawPixel (o : Option C8VM) (c : Fin 64) (r : Fin 32) : Option Nat :=
  match o with
  | some vm => some (vm.pixels c r)
  | none => none

/-- Observer: the VF register of a draw result. -/
def drawVF (o : Option C8VM) : Option Nat :=
  match o with
  | some vm => some (vm.regV fF)
  | none => none

/-- Two consecutive `initSprite` calls with identical arguments. -/
def drawTwice (vm : C8VM) (x y n : Nat) : Option C8VM :=
  match initSprite vm x y n with
  | none => none
  | some v1 => initSprite v1 x y n

/-- State with an 8×1 sprite of 0xFF at I = 0x300 and the framebuffer
row 0, columns 0–7 already set to 1 (exactly the cells the sprite will
cover when drawn at (0,0)). -/
def vmC5 : C8VM :=
  { zeroVM with
    memory := fun i => if i.val = 0x300 then 0xFF else 0,
    pixels := fun c r => if r.val = 0 ∧ c.val < 8 then 1 else 0,
    regI := 0x300 }

/-- State with an 8×1 sprite of 0xFF at I = 0x300 and a clear
framebuffer. -/
def vmW5 : C8VM :=
  { zeroVM with
    memory := fun i => if i.val = 0x300 then 0xFF else 0,
    regI := 0x300 }

/-- State with an 8×1 sprite of 0xFF at I = 0x300 and a clear
framebuffer, for the wraparound witness at x = 60. -/
def vmW6 : C8VM :=
  { zeroVM with
    memory := fun i => if i.val = 0x300 then 0xFF else 0,
    regI := 0x300 }

/-- When the fetch succeeds, one cycle is exactly the decode–execute of
the fetched opcode. -/
theorem step_eq_exec (rnd : Nat) (vm : C8VM) (op : Nat)
    (hf : fetch vm = some op) :
    ReadNextInstruction rnd vm = execOpcode rnd op vm := by
  unfold ReadNextInstruction
  rw [hf]

/-- C1: in the state `vmC1` — instruction `F00A`, V0 = 5, and key 5 (and
only key 5) held down — the instruction completes and stores 0 into V0,
although key 0 is not down (bit 0 of the mask is clear) while key 5 is.
The claim "the value written to Vx is the code k of a key whose bit is
set in the key mask, for any initial contents of Vx" is therefore false
on the code: the busy-loop polls `issetKeymask(vm.regV[x])` instead of
the scanned key `i`, so it stores the loop index 0 whenever key `V x` is
down (and never terminates otherwise, even when other keys are down). -/
theorem c1_fx0a_stores_loop_index :
    okReg (ReadNextInstruction 0 vmC1) f0 = some 0 ∧
    vmC1.key = 0x20 ∧
    Nat.testBit 0x20 0 = false ∧
    Nat.testBit 0x20 5 = true := by
  refine ⟨by decide, rfl, by decide, by decide⟩

/-- C2 counterexample: executing the unrecognized opcode `0x5001` from
`vmC2` does return the `unknownOpcode` error, but the VM state is NOT
left entirely unchanged: the `opcode` field (a field of the `C8VM`
struct, assigned during fetch before decode) changes from 0 to 0x5001. -/
theorem c2_cex_opcode_field_mutated :
    errOpcode (ReadNextInstruction 0 vmC2) = some 0x5001 ∧
    vmC2.opcode = 0 := by
  refine ⟨by decide, rfl⟩

/-- C2 (amended): for every state and every fetched opcode that matches
no known pattern, the cycle returns the `unknownOpcode` error and leaves
every field of the VM unchanged EXCEPT the `opcode` field, which holds
the newly fetched opcode (registers, PC, SP, stack, memory, timers,
framebuffer and flags are untouched). -/
theorem c2_unknown_opcode_err_preserves_state (vm : C8VM) (r op : Nat)
    (hf : fetch vm = some op) (hu : isUnknown op = true) :
    ReadNextInstruction r vm = .err { vm with opcode := op } := by
  rw [step_eq_exec r vm op hf]
  unfold execOpcode
  dsimp only
  unfold isUnknown at hu
  split <;>
    first
      | rfl
      | (rename_i heq
         simp only [heq] at hu
         first
           | cases hu
           | (split at hu <;> first | rfl | cases hu))

/-- C2 witness: the amended theorem applied to the concrete state `vmC2`
holding opcode 0x5001. -/
theorem c2_witness :
    ReadNextInstruction 0 vmC2 = .err { vmC2 with opcode := 0x5001 } :=
  c2_unknown_opcode_err_preserves_state vmC2 0 0x5001 (by rfl) (by rfl)

/-- C4 counterexample: for opcode `8F04` (x = F) from state `vmC4` with
VF = 0xFF and V0 = 0x03 (sum 0x102 > 255), the claim demands VF = 1, but
the code's final assignment `Vx = sum mod 256` targets VF itself and
overwrites the freshly written carry flag: VF ends as 0x02, not 1. -/
theorem c4_cex_flag_overwritten_when_x_is_F :
    okReg (ReadNextInstruction 0 vmC4) fF = some 2 ∧
    okReg (ReadNextInstruction 0 vmC4) fF ≠ some 1 := by
  refine ⟨by decide, by decide⟩

/-- C4 (amended): for every pair of register indices with x ≠ 0xF,
executing `8xy4` sets VF to 1 exactly when the unwrapped pre-state sum
Vx+Vy exceeds 255 and to 0 otherwise; and for EVERY x (including 0xF)
Vx afterwards equals (Vx+Vy) mod 256 of the pre-state values — when
x = 0xF that final assignment is what overwrites the carry flag. -/
theorem c4_add_carry (vm : C8VM) (r op x y : Nat) (hx : x < 16) (hy : y < 16)
    (hf : fetch vm = some op)
    (hhi : op &&& 0xF000 = 0x8000)
    (hn : op &&& 0xF = 0x4)
    (hxo : (op >>> 8) &&& 0xF = x)
    (hyo : (op >>> 4) &&& 0xF = y)
    (hVx : vm.regV ⟨x, hx⟩ < 256) (hVy : vm.regV ⟨y, hy⟩ < 256) :
    ∃ vm', ReadNextInstruction r vm = .ok vm' ∧
      vm'.regV ⟨x, hx⟩ = (vm.regV ⟨x, hx⟩ + vm.regV ⟨y, hy⟩) % 256 ∧
      (x ≠ 15 →
        vm'.regV fF = if 255 < vm.regV ⟨x, hx⟩ + vm.regV ⟨y, hy⟩ then 1 else 0) := by
  rw [step_eq_exec r vm op hf]
  unfold execOpcode
  simp only [hhi, hn, hxo, hyo]
  refine ⟨_, rfl, ?_, ?_⟩
  · show (Function.update (Function.update vm.regV fF _) ⟨x, _⟩ _) ⟨x, hx⟩ = _
    rw [Function.update_same]
    show u8 ((vm.regV ⟨x, hx⟩ + vm.regV ⟨y, hy⟩) &&& 0xFFFF) = _
    have hs : vm.regV ⟨x, hx⟩ + vm.regV ⟨y, hy⟩ < 65536 := by omega
    rw [show (0xFFFF : Nat) = 2 ^ 16 - 1 by norm_num, Nat.and_pow_two_sub_one_eq_mod,
      Nat.mod_eq_of_lt hs]
    rfl
  · intro hxF
    show (Function.update (Function.update vm.regV fF _) ⟨x, _⟩ _) fF = _
    rw [Function.update_noteq (by simp [fF, Fin.ext_iff]; omega), Function.update_same]

/-- C4 witness: the spec's worked example `Vx = 0xFF, Vy = 0x02` gives
`VF = 1, Vx = 0x01` (state `vmW4`, opcode `8124`). -/
theorem c4_witness :
    okReg (ReadNextInstruction 0 vmW4) ⟨1, by norm_num⟩ = some 0x01 ∧
    okReg (ReadNextInstruction 0 vmW4) fF = some 1 := by
  obtain ⟨vm', h1, h2, h3⟩ := c4_add_carry vmW4 0 0x8124 1 2 (by norm_num) (by norm_num)
    (by rfl) (by decide) (by decide) (by decide) (by decide) (by decide) (by decide)
  rw [h1]
  unfold okReg
  dsimp only
  constructor
  · rw [h2]; decide
  · rw [h3 (by decide)]; decide

/-- C7 counterexample: from `vmC7` (pc = 4095, so pc+1 = 4096 is past
the end of memory) the fetch does NOT fail with a recoverable
`OutOfBounds` error returned to the caller — the Go code has no such
error and simply indexes `memory[4096]`, a runtime index-out-of-range
panic that kills the process (`crash`); in particular no error value is
ever produced. -/
theorem c7_cex_fetch_panics_not_errors :
    ReadNextInstruction 0 vmC7 = .crash ∧
    errOpcode (ReadNextInstruction 0 vmC7) = none := by
  exact ⟨rfl, rfl⟩

/-- C7 (amended): whenever pc+1 ≥ 4096 the instruction cycle dies with a
runtime index-out-of-range panic (not a returned error); whenever
pc+1 < 4096 the fetch produces `memory[pc] << 8 | memory[pc+1]`
without failing. -/
theorem c7_fetch_bounds (vm : C8VM) (r : Nat) (hm : ∀ i, vm.memory i < 256) :
    (4096 ≤ vm.pc + 1 → ReadNextInstruction r vm = .crash) ∧
    (∀ h : vm.pc + 1 < 4096,
      fetch vm = some (vm.memory ⟨vm.pc, by omega⟩ <<< 8 ||| vm.memory ⟨vm.pc + 1, h⟩)) := by
  constructor
  · intro hge
    have hfn : fetch vm = none := by
      unfold fetch memRead
      rcases Nat.lt_or_ge vm.pc 4096 with h1 | h1
      · have hpc : vm.pc = 4095 := by omega
        have h2 : u16 (vm.pc + 1) = 4096 := by rw [hpc]; decide
        rw [h2, dif_pos h1, dif_neg (by omega)]
      · rw [dif_neg (by omega)]
    unfold ReadNextInstruction
    rw [hfn]
  · intro h
    have h1 : vm.pc < 4096 := by omega
    have h2 : u16 (vm.pc + 1) = vm.pc + 1 := Nat.mod_eq_of_lt (by omega)
    unfold fetch memRead
    rw [h2, dif_pos h1, dif_pos h]
    dsimp only
    have h3 : u16 (vm.memory ⟨vm.pc, h1⟩ <<< 8) = vm.memory ⟨vm.pc, h1⟩ <<< 8 := by
      have h4 := hm ⟨vm.pc, h1⟩
      unfold u16
      rw [Nat.shiftLeft_eq]
      have h5 : vm.memory ⟨vm.pc, h1⟩ * 2 ^ 8 < 65536 := by
        have : vm.memory ⟨vm.pc, h1⟩ * 256 < 65536 := by omega
        simpa using this
      exact Nat.mod_eq_of_lt h5
    rw [h3]

/-- C7 witness: the amended theorem at concrete inputs — a state with
pc = 4500 crashes, and the freshly constructed all-zero state fetches
its opcode without error. -/
theorem c7_witness :
    ReadNextInstruction 0 { zeroVM with pc := 4500 } = .crash ∧
    fetch zeroVM =
      some (zeroVM.memory ⟨0x200, by norm_num⟩ <<< 8 ||| zeroVM.memory ⟨0x201, by norm_num⟩) := by
  constructor
  · exact (c7_fetch_bounds { zeroVM with pc := 4500 } 0 (fun i => by norm_num [zeroVM])).1
      (by norm_num)
  · exact (c7_fetch_bounds zeroVM 0 (fun i => by norm_num [zeroVM])).2 (by decide)

/-- C8: from `vmC8` — instruction `D010`, i.e. `Dxyn` with sprite height
n = 0, and VF pre-set to 7 — the cycle does NOT surface any failure: it
returns normally (no error value), zeroes VF, sets the draw flag and
advances PC by 2, exactly the completion of a normal draw.  The claim
(and the spec) say n = 0 is an `UnknownOpcode`-class failure surfaced to
the caller; the Go code does evaluate `vm.unknownOpcode()` under its
`if n > 15 || n == 0` guard but discards the returned error instead of
propagating it, so the claim correctly describes the intent and the
code drops the failure — a code bug. -/
theorem c8_dxy0_completes_as_normal_draw :
    okReg (ReadNextInstruction 0 vmC8) fF = some 0 ∧
    okDrawFlag (ReadNextInstruction 0 vmC8) = some true ∧
    okPC (ReadNextInstruction 0 vmC8) = some 0x202 ∧
    errOpcode (ReadNextInstruction 0 vmC8) = none := by
  refine ⟨by decide, by decide, by decide, by decide⟩

/-- C9 counterexample: executing `F029` from `vmC9` with V0 = 0x40
leaves I = 64, not the exact product 5·0x40 = 320 claimed: the Go code
computes `uint16(5 * vm.regV[x])`, a `uint8` multiplication that wraps
mod 256 before the widening conversion. -/
theorem c9_cex_fx29_wraps_mod_256 :
    okRegI (ReadNextInstruction 0 vmC9) = some 64 ∧
    okRegI (ReadNextInstruction 0 vmC9) ≠ some (5 * 0x40) := by
  refine ⟨by decide, by decide⟩

/-- C9 (amended): `Fx29` sets I to `(5 * Vx) mod 256` (the product is
taken in 8 bits before widening to the 16-bit I register); this equals
the exact product 5·Vx whenever Vx ≤ 51, which covers every font digit
0x0–0xF. -/
theorem c9_fx29_font_addr (vm : C8VM) (r op x : Nat) (hx : x < 16)
    (hf : fetch vm = some op)
    (hhi : op &&& 0xF000 = 0xF000)
    (hkk : op &&& 0xFF = 0x29)
    (hxo : (op >>> 8) &&& 0xF = x) :
    ∃ vm', ReadNextInstruction r vm = .ok vm' ∧
      vm'.regI = (5 * vm.regV ⟨x, hx⟩) % 256 ∧
      (vm.regV ⟨x, hx⟩ ≤ 51 → vm'.regI = 5 * vm.regV ⟨x, hx⟩) := by
  rw [step_eq_exec r vm op hf]
  unfold execOpcode
  simp only [hhi, hkk, hxo]
  refine ⟨_, rfl, rfl, ?_⟩
  intro hle
  show u8 (5 * vm.regV ⟨x, hx⟩) = _
  unfold u8
  exact Nat.mod_eq_of_lt (by omega)

/-- C9 witness: the amended theorem at `vmW9` (V0 = 0xB, a font digit):
I ends as 5·0xB = 55. -/
theorem c9_witness : okRegI (ReadNextInstruction 0 vmW9) = some 55 := by
  obtain ⟨vm', h1, h2, h3⟩ := c9_fx29_font_addr vmW9 0 0xF029 0 (by norm_num)
    (by rfl) (by decide) (by decide) (by decide)
  rw [h1]
  unfold okRegI
  dsimp only
  rw [h3 (by decide)]
  decide

/-- C10: `UnsetKeymask` toggles instead of clearing — for every key
code k ≤ 0xF and every key mask whose bit k is 0, `UnsetKeymask` flips
bit k to 1 (the Go code XORs `1 << code` into the mask rather than
AND-ing with its complement), so calling it for a key that is not
currently set corrupts the mask-bit-iff-key-held reading. -/
theorem c10_unsetKeymask_toggles (key k : Nat) (hk : k ≤ 15)
    (h0 : key.testBit k = false) :
    (UnsetKeymask key k).testBit k = true := by
  unfold UnsetKeymask
  have hmask : u16 (1 <<< k) = 2 ^ k := by
    unfold u16
    rw [Nat.shiftLeft_eq, one_mul]
    have h5 : (2 : Nat) ^ k < 65536 := by
      have h6 := Nat.pow_lt_pow_right (show 1 < 2 by norm_num) (show k < 16 by omega)
      simpa using h6
    exact Nat.mod_eq_of_lt h5
  rw [hmask]
  simp [Nat.testBit_xor, h0]

/-- C10 witness: unsetting key 3 in the empty key mask sets bit 3. -/
theorem c10_witness :
    (0 : Nat).testBit 3 = false ∧ (UnsetKeymask 0 3).testBit 3 = true :=
  ⟨by decide, c10_unsetKeymask_toggles 0 3 (by decide) (by decide)⟩

/-- C3 counterexample: a reachable state violates the claim.  A freshly
constructed VM (SP = 0) loaded with the two-byte program `00EE` (RET as
the first instruction) executes one instruction and neither yields a
state with SP ∈ [0,16) nor keeps the stack access in bounds: `vm.sp--`
wraps the uint8 stack pointer from 0 to 255 and `vm.stack[255]` indexes
outside the 16-entry stack — a runtime panic (`crash`). -/
theorem c3_cex_ret_underflows_stack :
    Option.map (ReadNextInstruction 0) (LoadProgram NewC8VM [0x00, 0xEE]) =
      some StepResult.crash := by
  rfl

/-- C3 (amended): the code enforces no [0,16) stack-pointer invariant;
instead, for every state with SP < 16: a `00EE` return with SP ≥ 1
yields SP-1 (still within [0,16)) but with SP = 0 the decrement wraps to
255 and the stack access panics; a `2nnn` call (SP < 16 keeps the stack
write in bounds) yields SP+1, which leaves [0,16) exactly when SP was
15. -/
theorem c3_sp_behavior (vm : C8VM) (r op : Nat) (hf : fetch vm = some op)
    (hsp : vm.sp < 16) :
    (op &&& 0xF000 = 0x0000 → op &&& 0xFF = 0xEE →
      ((vm.sp = 0 → ReadNextInstruction r vm = .crash) ∧
       (1 ≤ vm.sp → ∃ vm', ReadNextInstruction r vm = .ok vm' ∧
          vm'.sp = vm.sp - 1 ∧ vm'.sp < 16))) ∧
    (op &&& 0xF000 = 0x2000 →
      ∃ vm', ReadNextInstruction r vm = .ok vm' ∧ vm'.sp = vm.sp + 1) := by
  rw [step_eq_exec r vm op hf]
  constructor
  · intro hhi hkk
    unfold execOpcode
    simp only [hhi, hkk]
    constructor
    · intro h0
      have h255 : (vm.sp + 255) % 256 = 255 := by omega
      rw [h255, dif_neg (by omega)]
    · intro h1
      have hs : (vm.sp + 255) % 256 = vm.sp - 1 := by omega
      rw [hs, dif_pos (by omega)]
      refine ⟨_, rfl, rfl, ?_⟩
      show vm.sp - 1 < 16
      omega
  · intro hhi
    unfold execOpcode
    simp only [hhi]
    rw [dif_pos hsp]
    refine ⟨_, rfl, ?_⟩
    show (vm.sp + 1) % 256 = vm.sp + 1
    exact Nat.mod_eq_of_lt (by omega)

/-- C3 witness: the amended theorem at concrete states — `00EE` from
`vmW3` (SP = 1) returns with SP = 0, and `2300` from `vmW3b` (SP = 15)
completes with SP = 16, outside [0,16). -/
theorem c3_witness :
    okSP (ReadNextInstruction 0 vmW3) = some 0 ∧
    okSP (ReadNextInstruction 0 vmW3b) = some 16 := by
  constructor
  · obtain ⟨vm', h1, h2, h3⟩ :=
      ((c3_sp_behavior vmW3 0 0x00EE (by rfl) (by decide)).1 (by decide) (by decide)).2
        (by decide)
    rw [h1]
    unfold okSP
    dsimp only
    rw [h2]
    decide
  · obtain ⟨vm', h1, h2⟩ :=
      (c3_sp_behavior vmW3b 0 0x2300 (by rfl) (by decide)).2 (by decide)
    rw [h1]
    unfold okSP
    dsimp only
    rw [h2]
    decide

/-- The Go `uint8` wrap inside the column computation is absorbed by the
`% 64`: the blit column is `(x + (7 - bitIdx)) % 64`. -/
theorem colF_val (x k : Nat) : (colF x k).val = (x + (7 - k)) % 64 := by
  unfold colF u8
  exact Nat.mod_mod_of_dvd _ (by norm_num)

/-- The blit row is `(y + byteIdx) % 32`. -/
theorem rowF_val (y b : Nat) : (rowF y b).val = (y + b) % 32 := by
  unfold rowF u8
  exact Nat.mod_mod_of_dvd _ (by norm_num)

/-- Within one sprite row the 8 bit positions hit 8 distinct columns. -/
theorem colF_inj (x : Nat) {k kp : Nat} (hk : k < 8) (hkp : kp < 8)
    (h : colF x k = colF x kp) : k = kp := by
  have h1 := congrArg Fin.val h
  rw [colF_val, colF_val] at h1
  omega

/-- Sprite rows at most 31 apart hit distinct framebuffer rows. -/
theorem rowF_inj (y : Nat) {b bp : Nat} (hb : b < 32) (hbp : bp < 32)
    (h : rowF y b = rowF y bp) : b = bp := by
  have h1 := congrArg Fin.val h
  rw [rowF_val, rowF_val] at h1
  omega
theorem blitRow_untouched (x y b sb : Nat) (p : Fin 64 → Fin 32 → Nat) (vf : Nat)
    (j : Nat) : ∀ (c : Fin 64) (r : Fin 32),
    (r ≠ rowF y b ∨ ∀ k, k < j → c ≠ colF x k) →
    (blitRow x y b sb (p, vf) j).1 c r = p c r := by
  induction j with
  | zero => intro c r _; rfl
  | succ j ih =>
    intro c r h
    show (blitBit x y b sb (blitRow x y b sb (p, vf) j) j).1 c r = _
    unfold blitBit writePx
    dsimp only
    rcases h with h | h
    · by_cases hc : c = colF x j
      · subst hc
        rw [Function.update_same, Function.update_noteq h]
        exact ih _ _ (Or.inl h)
      · rw [Function.update_noteq hc]
        exact ih _ _ (Or.inl h)
    · have hcj : c ≠ colF x j := h j (by omega)
      rw [Function.update_noteq hcj]
      exact ih _ _ (Or.inr (fun k hk => h k (by omega)))

theorem blitRow_target (x y b sb : Nat) (p : Fin 64 → Fin 32 → Nat) (vf : Nat)
    (j : Nat) : j ≤ 8 → ∀ k, k < j →
    (blitRow x y b sb (p, vf) j).1 (colF x k) (rowF y b)
      = p (colF x k) (rowF y b) ^^^ ((sb >>> k) &&& 1) := by
  induction j with
  | zero => intro _ k hk; omega
  | succ j ih =>
    intro hj k hk
    show (blitBit x y b sb (blitRow x y b sb (p, vf) j) j).1 _ _ = _
    unfold blitBit writePx
    dsimp only
    by_cases hkj : k = j
    · subst hkj
      rw [Function.update_same, Function.update_same]
      have hun : (blitRow x y b sb (p, vf) k).1 (colF x k) (rowF y b)
          = p (colF x k) (rowF y b) :=
        blitRow_untouched x y b sb p vf k _ _
          (Or.inr (fun kp hkp hc =>
            absurd (colF_inj x (by omega) (by omega) hc) (by omega)))
      rw [hun]
    · have hcc : colF x k ≠ colF x j :=
        fun hc => hkj (colF_inj x (by omega) (by omega) hc)
      rw [Function.update_noteq hcc]
      exact ih (by omega) k (by omega)

theorem blitRow_vf_keep (x y b sb : Nat) (p : Fin 64 → Fin 32 → Nat) (vf : Nat)
    (j : Nat) : j ≤ 8 →
    (∀ k, k < j → ¬((sb >>> k) &&& 1 = 1 ∧ p (colF x k) (rowF y b) = 1)) →
    (blitRow x y b sb (p, vf) j).2 = vf := by
  induction j with
  | zero => intro _ _; rfl
  | succ j ih =>
    intro hj h
    show (blitBit x y b sb (blitRow x y b sb (p, vf) j) j).2 = _
    unfold blitBit
    dsimp only
    have hpx : (blitRow x y b sb (p, vf) j).1 (colF x j) (rowF y b)
        = p (colF x j) (rowF y b) :=
      blitRow_untouched x y b sb p vf j _ _
        (Or.inr (fun kp hkp hc =>
          absurd (colF_inj x (by omega) (by omega) hc) (by omega)))
    rw [hpx, if_neg (h j (by omega))]
    exact ih (by omega) (fun k hk => h k (by omega))

theorem blitRow_vf_one (x y b sb : Nat) (p : Fin 64 → Fin 32 → Nat) (vf : Nat)
    (j : Nat) (hvf : vf = 1) :
    (blitRow x y b sb (p, vf) j).2 = 1 := by
  induction j with
  | zero => exact hvf
  | succ j ih =>
    show (blitBit x y b sb (blitRow x y b sb (p, vf) j) j).2 = _
    unfold blitBit
    dsimp only
    rw [ih]
    split <;> rfl

theorem blitRow_vf_hit (x y b sb : Nat) (p : Fin 64 → Fin 32 → Nat) (vf : Nat)
    (j : Nat) : j ≤ 8 → ∀ k, k < j →
    (sb >>> k) &&& 1 = 1 → p (colF x k) (rowF y b) = 1 →
    (blitRow x y b sb (p, vf) j).2 = 1 := by
  induction j with
  | zero => intro _ k hk; omega
  | succ j ih =>
    intro hj k hk hbit hpx
    show (blitBit x y b sb (blitRow x y b sb (p, vf) j) j).2 = _
    unfold blitBit
    dsimp only
    by_cases hkj : k = j
    · subst hkj
      have hun : (blitRow x y b sb (p, vf) k).1 (colF x k) (rowF y b)
          = p (colF x k) (rowF y b) :=
        blitRow_untouched x y b sb p vf k _ _
          (Or.inr (fun kp hkp hc =>
            absurd (colF_inj x (by omega) (by omega) hc) (by omega)))
      rw [hun, if_pos ⟨hbit, hpx⟩]
    · rw [ih (by omega) k (by omega) hbit hpx]
      split <;> rfl

/-- Full characterization of the `initSprite` outer loop over the first
`n` sprite rows (all reads in bounds): memory, I and the non-VF
registers are untouched; each target cell `(colF x k, rowF y b)` is the
old cell XOR sprite bit `k` of row `b`; cells on no target row, and
cells in no target column, are untouched; VF ends 1 if some sprite 1-bit
sat over an already-1 cell and keeps its starting value if none did. -/
theorem drawRows_spec (x y : Nat) (vm : C8VM) (n : Nat) : n ≤ 15 →
    (∀ b, b < n → u16 (vm.regI + b) < 4096) →
    ∃ vmn, drawRows x y vm n = some vmn ∧
      vmn.memory = vm.memory ∧
      vmn.regI = vm.regI ∧
      (∀ i, i ≠ fF → vmn.regV i = vm.regV i) ∧
      (∀ b, b < n → ∀ k, k < 8 →
        vmn.pixels (colF x k) (rowF y b)
          = vm.pixels (colF x k) (rowF y b) ^^^ ((spriteByteAt vm b >>> k) &&& 1)) ∧
      (∀ c r, (∀ b, b < n → r ≠ rowF y b) → vmn.pixels c r = vm.pixels c r) ∧
      (∀ c r, (∀ k, k < 8 → c ≠ colF x k) → vmn.pixels c r = vm.pixels c r) ∧
      ((∃ b, b < n ∧ ∃ k, k < 8 ∧ (spriteByteAt vm b >>> k) &&& 1 = 1 ∧
          vm.pixels (colF x k) (rowF y b) = 1) → vmn.regV fF = 1) ∧
      ((∀ b, b < n → ∀ k, k < 8 → ¬((spriteByteAt vm b >>> k) &&& 1 = 1 ∧
          vm.pixels (colF x k) (rowF y b) = 1)) → vmn.regV fF = vm.regV fF) := by
  induction n with
  | zero =>
    intro _ _
    refine ⟨vm, rfl, rfl, rfl, fun _ _ => rfl, fun b hb => by omega,
      fun _ _ _ => rfl, fun _ _ _ => rfl, ?_, fun _ => rfl⟩
    rintro ⟨b, hb, _⟩
    omega
  | succ n ih =>
    intro hn hb
    obtain ⟨vmp, hdraw, hmem, hregI, hregV, hpix, hrowun, hcolun, hvf1, hvf0⟩ :=
      ih (by omega) (fun b hb2 => hb b (by omega))
    have haddr : u16 (vm.regI + n) < 4096 := hb n (by omega)
    have hsb : spriteByteAt vm n = vm.memory ⟨u16 (vm.regI + n), haddr⟩ := by
      unfold spriteByteAt memRead
      rw [dif_pos haddr]
      rfl
    have hread : memRead vmp (u16 (vmp.regI + n)) = some (spriteByteAt vm n) := by
      unfold memRead
      rw [hregI, dif_pos haddr, hsb, hmem]
    refine ⟨{ vmp with
        pixels := (blitRow x y n (spriteByteAt vm n) (vmp.pixels, vmp.regV fF) 8).1,
        regV := Function.update vmp.regV fF
          (blitRow x y n (spriteByteAt vm n) (vmp.pixels, vmp.regV fF) 8).2 },
      ?_, ?_, ?_, ?_, ?_, ?_, ?_, ?_, ?_⟩
    · show drawRows x y vm (n + 1) = _
      unfold drawRows
      rw [hdraw]
      dsimp only
      rw [hread]
    · exact hmem
    · exact hregI
    · intro i hi
      show Function.update vmp.regV fF _ i = _
      rw [Function.update_noteq hi]
      exact hregV i hi
    · intro b hb2 k hk
      show (blitRow x y n (spriteByteAt vm n) (vmp.pixels, vmp.regV fF) 8).1 _ _ = _
      by_cases hbn : b = n
      · subst hbn
        rw [blitRow_target x y b (spriteByteAt vm b) vmp.pixels (vmp.regV fF) 8
          (by omega) k hk]
        congr 1
        exact hrowun _ _ (fun bp hbp hr =>
          absurd (rowF_inj y (by omega) (by omega) hr) (by omega))
      · rw [blitRow_untouched x y n (spriteByteAt vm n) vmp.pixels (vmp.regV fF) 8 _ _
          (Or.inl (fun hr => absurd (rowF_inj y (by omega) (by omega) hr) (by omega)))]
        exact hpix b (by omega) k hk
    · intro c r hr
      show (blitRow x y n (spriteByteAt vm n) (vmp.pixels, vmp.regV fF) 8).1 _ _ = _
      rw [blitRow_untouched x y n (spriteByteAt vm n) vmp.pixels (vmp.regV fF) 8 _ _
        (Or.inl (hr n (by omega)))]
      exact hrowun c r (fun b hb2 => hr b (by omega))
    · intro c r hc
      show (blitRow x y n (spriteByteAt vm n) (vmp.pixels, vmp.regV fF) 8).1 _ _ = _
      rw [blitRow_untouched x y n (spriteByteAt vm n) vmp.pixels (vmp.regV fF) 8 _ _
        (Or.inr (fun k hk => hc k hk))]
      exact hcolun c r hc
    · rintro ⟨b, hb2, k, hk, hbit, hcell⟩
      show Function.update vmp.regV fF _ fF = 1
      rw [Function.update_same]
      by_cases hbn : b = n
      · subst hbn
        have hcell2 : vmp.pixels (colF x k) (rowF y b) = 1 := by
          rw [hrowun _ _ (fun bp hbp hr =>
            absurd (rowF_inj y (by omega) (by omega) hr) (by omega))]
          exact hcell
        exact blitRow_vf_hit x y b (spriteByteAt vm b) vmp.pixels (vmp.regV fF) 8
          (by omega) k hk hbit hcell2
      · have : vmp.regV fF = 1 := hvf1 ⟨b, by omega, k, hk, hbit, hcell⟩
        exact blitRow_vf_one x y n (spriteByteAt vm n) vmp.pixels (vmp.regV fF) 8 this
    · intro hnone
      show Function.update vmp.regV fF _ fF = _
      rw [Function.update_same]
      have hkeep : (blitRow x y n (spriteByteAt vm n) (vmp.pixels, vmp.regV fF) 8).2
          = vmp.regV fF := by
        apply blitRow_vf_keep x y n (spriteByteAt vm n) vmp.pixels (vmp.regV fF) 8
          (by omega)
        intro k hk hcoll
        have hcell : vmp.pixels (colF x k) (rowF y n) = vm.pixels (colF x k) (rowF y n) :=
          hrowun _ _ (fun bp hbp hr =>
            absurd (rowF_inj y (by omega) (by omega) hr) (by omega))
        rw [hcell] at hcoll
        exact hnone n (by omega) k hk hcoll
      rw [hkeep]
      exact hvf0 (fun b hb2 k hk => hnone b (by omega) k hk)

/-- `initSprite` = VF := 0, then the row loop: same pixel
characterization as `drawRows_spec`, and VF ends 1 iff some sprite
1-bit lands on a cell that already held 1. -/
theorem initSprite_spec (vm : C8VM) (x y n : Nat) (hn : n ≤ 15)
    (hb : ∀ b, b < n → u16 (vm.regI + b) < 4096) :
    ∃ vmn, initSprite vm x y n = some vmn ∧
      vmn.memory = vm.memory ∧
      vmn.regI = vm.regI ∧
      (∀ i, i ≠ fF → vmn.regV i = vm.regV i) ∧
      (∀ b, b < n → ∀ k, k < 8 →
        vmn.pixels (colF x k) (rowF y b)
          = vm.pixels (colF x k) (rowF y b) ^^^ ((spriteByteAt vm b >>> k) &&& 1)) ∧
      (∀ c r, (∀ b, b < n → r ≠ rowF y b) → vmn.pixels c r = vm.pixels c r) ∧
      (∀ c r, (∀ k, k < 8 → c ≠ colF x k) → vmn.pixels c r = vm.pixels c r) ∧
      (vmn.regV fF = 1 ↔
        ∃ b, b < n ∧ ∃ k, k < 8 ∧ (spriteByteAt vm b >>> k) &&& 1 = 1 ∧
          vm.pixels (colF x k) (rowF y b) = 1) := by
  obtain ⟨vmn, hdraw, hmem, hregI, hregV, hpix, hrowun, hcolun, hvf1, hvf0⟩ :=
    drawRows_spec x y { vm with regV := Function.update vm.regV fF 0 } n hn hb
  refine ⟨vmn, hdraw, hmem, hregI, ?_, hpix, hrowun, hcolun, ?_⟩
  · intro i hi
    rw [hregV i hi]
    show Function.update vm.regV fF 0 i = _
    rw [Function.update_noteq hi]
  · constructor
    · intro h1
      by_contra hne
      have h0 := hvf0 (fun b hb2 k hk hAB => hne ⟨b, hb2, k, hk, hAB.1, hAB.2⟩)
      rw [h1] at h0
      have h2 : ({ vm with regV := Function.update vm.regV fF 0 } : C8VM).regV fF = 0 := by
        show Function.update vm.regV fF 0 fF = 0
        exact Function.update_same _ _ _
      rw [h2] at h0
      exact absurd h0 (by norm_num)
    · intro hex
      exact hvf1 hex

/-- C5 (amended): sprite drawing is an XOR blit with collision
reporting.  For every framebuffer state (cells 0/1), origin and sprite
(height n ≤ 15, reads in bounds), drawing twice with identical
arguments restores every cell to its pre-first-draw value (the whole
framebuffer is equal again); VF is reset to 0 before each draw and on
the FIRST draw ends 1 iff some sprite 1-bit lands on a cell already 1;
on the SECOND draw VF ends 1 iff some sprite 1-bit landed on a cell
that was 0 before the first draw — NOT merely "whenever the sprite has
any 1 bit" (see the counterexample, where every covered cell started
at 1).  In particular, on an initially clear framebuffer the second
draw of any sprite with a 1 bit reports VF = 1, which is the claim's
concrete instance. -/
theorem c5_xor_blit_double_draw (vm : C8VM) (x y n : Nat) (hn : n ≤ 15)
    (hb : ∀ b, b < n → u16 (vm.regI + b) < 4096)
    (hpx : ∀ c r, vm.pixels c r ≤ 1) :
    ∃ vm1 vm2, initSprite vm x y n = some vm1 ∧ initSprite vm1 x y n = some vm2 ∧
      vm2.pixels = vm.pixels ∧
      (vm1.regV fF = 1 ↔
        ∃ b, b < n ∧ ∃ k, k < 8 ∧ (spriteByteAt vm b >>> k) &&& 1 = 1 ∧
          vm.pixels (colF x k) (rowF y b) = 1) ∧
      (vm2.regV fF = 1 ↔
        ∃ b, b < n ∧ ∃ k, k < 8 ∧ (spriteByteAt vm b >>> k) &&& 1 = 1 ∧
          vm.pixels (colF x k) (rowF y b) = 0) := by
  obtain ⟨vm1, h1draw, h1mem, h1regI, h1regV, h1pix, h1rowun, h1colun, h1vf⟩ :=
    initSprite_spec vm x y n hn hb
  have hb1 : ∀ b, b < n → u16 (vm1.regI + b) < 4096 := by
    intro b hb2
    rw [h1regI]
    exact hb b hb2
  obtain ⟨vm2, h2draw, h2mem, h2regI, h2regV, h2pix, h2rowun, h2colun, h2vf⟩ :=
    initSprite_spec vm1 x y n hn hb1
  have hsb1 : ∀ b, spriteByteAt vm1 b = spriteByteAt vm b := by
    intro b
    unfold spriteByteAt memRead
    rw [h1regI]
    by_cases hlt : u16 (vm.regI + b) < 4096
    · rw [dif_pos hlt, dif_pos hlt]
      rw [show vm1.memory = vm.memory from h1mem]
    · rw [dif_neg hlt, dif_neg hlt]
  refine ⟨vm1, vm2, h1draw, h2draw, ?_, h1vf, ?_⟩
  · funext c r
    by_cases hr : ∃ b, b < n ∧ r = rowF y b
    · obtain ⟨b, hb2, rfl⟩ := hr
      by_cases hc : ∃ k, k < 8 ∧ c = colF x k
      · obtain ⟨k, hk, rfl⟩ := hc
        rw [h2pix b hb2 k hk, hsb1, h1pix b hb2 k hk, Nat.xor_cancel_right]
      · have hcf : ∀ k, k < 8 → c ≠ colF x k := fun k hk hceq => hc ⟨k, hk, hceq⟩
        rw [h2colun c _ hcf, h1colun c _ hcf]
    · have hrf : ∀ b, b < n → r ≠ rowF y b := fun b hb2 hreq => hr ⟨b, hb2, hreq⟩
      rw [h2rowun c r hrf, h1rowun c r hrf]
  · rw [h2vf]
    constructor
    · rintro ⟨b, hb2, k, hk, hbit, hcell⟩
      rw [hsb1 b] at hbit
      rw [h1pix b hb2 k hk, hbit] at hcell
      rcases Nat.le_one_iff_eq_zero_or_eq_one.mp (hpx (colF x k) (rowF y b)) with h0 | h0
      · exact ⟨b, hb2, k, hk, hbit, h0⟩
      · rw [h0] at hcell
        exact absurd hcell (by decide)
    · rintro ⟨b, hb2, k, hk, hbit, hcell⟩
      refine ⟨b, hb2, k, hk, ?_, ?_⟩
      · rw [hsb1 b]
        exact hbit
      · rw [h1pix b hb2 k hk, hbit, hcell]
        decide

/-- C6: for every origin (x,y) in the full 8-bit register range, every
sprite height n ∈ [1,15] (reads in bounds), every row index b < n and
bit index k < 8, `Dxyn`'s blit writes sprite bit k of row b (so the
most-significant bit lands leftmost) into the framebuffer cell
`((x + (7 - k)) mod 64, (y + b) mod 32)` as an XOR onto the old value —
coordinates wrap toroidally and sprites never clip.  (The Go `uint8`
additions wrap mod 256 first, which is absorbed by mod 64 / mod 32.) -/
theorem c6_sprite_target_cells (vm : C8VM) (x y n : Nat)
    (hx : x < 256) (hy : y < 256) (hn1 : 1 ≤ n) (hn : n ≤ 15)
    (hb : ∀ b, b < n → u16 (vm.regI + b) < 4096) :
    ∃ vm', initSprite vm x y n = some vm' ∧
      ∀ b, b < n → ∀ k, k < 8 →
        vm'.pixels ⟨(x + (7 - k)) % 64, Nat.mod_lt _ (by norm_num)⟩
            ⟨(y + b) % 32, Nat.mod_lt _ (by norm_num)⟩
          = vm.pixels ⟨(x + (7 - k)) % 64, Nat.mod_lt _ (by norm_num)⟩
              ⟨(y + b) % 32, Nat.mod_lt _ (by norm_num)⟩
            ^^^ ((spriteByteAt vm b >>> k) &&& 1) := by
  obtain ⟨vm', hdraw, _, _, _, hpix, _, _, _⟩ := initSprite_spec vm x y n hn hb
  refine ⟨vm', hdraw, ?_⟩
  intro b hb2 k hk
  have hc : colF x k = ⟨(x + (7 - k)) % 64, Nat.mod_lt _ (by norm_num)⟩ :=
    Fin.ext (colF_val x k)
  have hr : rowF y b = ⟨(y + b) % 32, Nat.mod_lt _ (by norm_num)⟩ :=
    Fin.ext (rowF_val y b)
  rw [← hc, ← hr]
  exact hpix b hb2 k hk

/-- C5 counterexample: draw the 8×1 sprite 0xFF at (0,0) on a
framebuffer whose covered row already holds all 1s (`vmC5`).  The first
draw reports collision (VF = 1) and erases the row; the second
identical draw finds every covered cell 0, so VF = 0 — yet the sprite
is all 1-bits, refuting "on the second draw VF = 1 whenever the sprite
has any 1 bit". -/
theorem c5_cex_second_draw_vf_zero :
    drawVF (initSprite vmC5 0 0 1) = some 1 ∧
    drawVF (drawTwice vmC5 0 0 1) = some 0 ∧
    spriteByteAt vmC5 0 = 0xFF := by
  exact ⟨rfl, rfl, rfl⟩

/-- C5 witness: the amended theorem applied to the claim's own concrete
instance — 8×1 sprite 0xFF drawn twice at (0,0) on an initially clear
framebuffer: the second draw reports VF = 1 and the row is all zero
again. -/
theorem c5_witness :
    drawVF (drawTwice vmW5 0 0 1) = some 1 ∧
    drawPixel (drawTwice vmW5 0 0 1) ⟨0, by norm_num⟩ ⟨0, by norm_num⟩ = some 0 := by
  obtain ⟨vm1, vm2, h1, h2, h3, h4, h5⟩ := c5_xor_blit_double_draw vmW5 0 0 1
    (by norm_num) (fun b hb => by
      have hb0 : b = 0 := Nat.lt_one_iff.mp hb
      subst hb0
      decide)
    (fun c r => Nat.zero_le 1)
  have hdt : drawTwice vmW5 0 0 1 = some vm2 := by
    unfold drawTwice
    rw [h1]
    exact h2
  constructor
  · rw [hdt]
    unfold drawVF
    dsimp only
    rw [h5.mpr ⟨0, by norm_num, 0, by norm_num, by decide, by decide⟩]
  · rw [hdt]
    unfold drawPixel
    dsimp only
    rw [h3]
    decide

/-- C6 witness: drawing at x = 60 wraps — sprite bit 0 (rightmost
column, sprite column 7) lands at framebuffer column (60+7) mod 64 = 3,
and bit 7 (leftmost) at column 60. -/
theorem c6_witness :
    drawPixel (initSprite vmW6 60 0 1) ⟨3, by norm_num⟩ ⟨0, by norm_num⟩ = some 1 ∧
    drawPixel (initSprite vmW6 60 0 1) ⟨60, by norm_num⟩ ⟨0, by norm_num⟩ = some 1 := by
  obtain ⟨vm', hdraw, hpix⟩ := c6_sprite_target_cells vmW6 60 0 1 (by norm_num)
    (by norm_num) (by norm_num) (by norm_num)
    (fun b hb => by
      have hb0 : b = 0 := Nat.lt_one_iff.mp hb
      subst hb0
      decide)
  have e3 := hpix 0 (by norm_num) 0 (by norm_num)
  have e60 := hpix 0 (by norm_num) 7 (by norm_num)
  constructor
  · rw [hdraw]
    unfold drawPixel
    dsimp only
    exact congrArg some (e3.trans (by decide))
  · rw [hdraw]
    unfold drawPixel
    dsimp only
    exact congrArg some (e60.trans (by decide))
